import Mathlib

/-!
# Buswatch: a shallow embedding of the instrumentation core, emitters and TUI data model

This file embeds the parts of the buswatch observability stack that the verified
properties talk about:

* the SDK counter registry and snapshot assembly (`buswatch-sdk/src/state.rs`),
* the snapshot value types (`buswatch-types/src/{snapshot,metrics,version}.rs`),
* the Prometheus text renderer (`buswatch-sdk/src/prometheus.rs`),
* the snapshot JSON schema written by the File emitter (`buswatch-sdk/src/output.rs`)
  and the viewer file-poll source parser (`src/source/{snapshot,file}.rs`),
* the TUI data model, history/sparklines and export (`src/data/*.rs`, `src/app.rs`,
  `src/ui/summary.rs`),
* the RabbitMQ management-API adapter error classification
  (`buswatch-adapters/src/{rabbitmq,error}.rs`).

Modelling conventions:

* Rust `u64` counters and instants become `Nat`; instants are nanoseconds of a
  monotonic clock, matching `std::time::Instant` up to choice of epoch.
* `f64` arithmetic is modelled exactly over `ℚ`; the concrete values exercised by
  the properties below are exactly representable in `f64`, so no rounding gap is
  introduced at those points.
* `BTreeMap<String, V>` is modelled as an association list ordered by `strLt`
  (`mapLookup` / `mapInsert` / `mapRemove` mirror `get` / `insert` / `remove`).
* `Arc<T>` sharing in the registry is modelled by an explicit allocator: a heap
  `Nat → ModuleState` together with a bump counter `nextId`; a module handle is
  the allocation index of its series, so a handle survives `unregister` and keeps
  addressing the orphaned series, exactly as an `Arc` clone does.
-/

namespace Buswatch

/-! ## Ordered string maps (Rust `BTreeMap<String, _>`) -/

/-- Character-list comparison used to order map keys (Rust `String` ordering is
lexicographic; we compare scalar values). -/
def charListLt : List Char → List Char → Bool
  | [], [] => false
  | [], _ :: _ => true
  | _ :: _, [] => false
  | a :: as, b :: bs =>
    if a.toNat < b.toNat then true
    else if b.toNat < a.toNat then false
    else charListLt as bs

/-- String comparison for map key order. -/
def strLt (a b : String) : Bool := charListLt a.data b.data

/-- `BTreeMap::get`. -/
def mapLookup (k : String) : List (String × α) → Option α
  | [] => none
  | (k', v) :: rest => if k = k' then some v else mapLookup k rest

/-- `BTreeMap::insert`: keeps the list ordered by key, replacing an existing
binding. -/
def mapInsert (k : String) (v : α) : List (String × α) → List (String × α)
  | [] => [(k, v)]
  | (k', v') :: rest =>
    if strLt k k' then (k, v) :: (k', v') :: rest
    else if k = k' then (k, v) :: rest
    else (k', v') :: mapInsert k v rest

/-- `BTreeMap::remove` (the key occurs at most once in a well-formed map). -/
def mapRemove (k : String) : List (String × α) → List (String × α)
  | [] => []
  | (k', v') :: rest => if k = k' then rest else (k', v') :: mapRemove k rest

/-- Update the value bound to `k`, if present. -/
def mapUpdate (k : String) (f : α → α) : List (String × α) → List (String × α)
  | [] => []
  | (k', v') :: rest =>
    if k = k' then (k', f v') :: rest else (k', v') :: mapUpdate k f rest

/-! ## Snapshot value types (`buswatch-types`) -/

/-- `SchemaVersion` from `buswatch-types/src/version.rs`. -/
structure SchemaVersion where
  major : Nat
  minor : Nat
  deriving Repr, DecidableEq

/-- `SchemaVersion::current()`: `SCHEMA_VERSION = 1`, minor `0`. -/
def SchemaVersion.current : SchemaVersion := ⟨1, 0⟩

/-- `ReadMetrics` from `buswatch-types/src/metrics.rs`. `pending` is the
`Microseconds` payload; `rate` is the `f64` rate modelled over `ℚ`. -/
structure ReadMetrics where
  count : Nat
  backlog : Option Nat
  pending : Option Nat
  rate : Option ℚ
  deriving Repr, DecidableEq

/-- `WriteMetrics` from `buswatch-types/src/metrics.rs` (no backlog field). -/
structure WriteMetrics where
  count : Nat
  pending : Option Nat
  rate : Option ℚ
  deriving Repr, DecidableEq

/-- `ModuleMetrics`: per-topic read and write metrics. -/
structure ModuleMetrics where
  reads : List (String × ReadMetrics)
  writes : List (String × WriteMetrics)
  deriving Repr, DecidableEq

/-- `Snapshot` from `buswatch-types/src/snapshot.rs`. -/
structure Snapshot where
  version : SchemaVersion
  timestamp_ms : Nat
  modules : List (String × ModuleMetrics)
  deriving Repr, DecidableEq

/-! ## SDK registry state (`buswatch-sdk/src/state.rs`) -/

/-- The per-topic series state shared by `ReadState` and `WriteState` (the two
Rust structs have identical fields): an atomic counter, the `pending_since`
cell, and the `(count, Instant)` memo used for rate computation. Instants are
nanoseconds. -/
structure SeriesState where
  count : Nat
  pending_since : Option Nat
  prev_snapshot : Option (Nat × Nat)
  deriving Repr, DecidableEq

/-- `ReadState::default()` / `WriteState::default()`. -/
def SeriesState.init : SeriesState := ⟨0, none, none⟩

/-- `compute_rate` from `state.rs`: `None` without a memo or when the elapsed
time is under 10 ms; otherwise the saturating count delta divided by the
elapsed seconds. `Instant::duration_since` saturates to zero, as does `Nat`
subtraction. -/
def compute_rate (prev : Option (Nat × Nat)) (current_count : Nat) (now : Nat) :
    Option ℚ :=
  match prev with
  | none => none
  | some (prev_count, prev_time) =>
    let elapsed_ns : Nat := now - prev_time
    let elapsed_secs : ℚ := (elapsed_ns : ℚ) / 1000000000
    if elapsed_secs < 1 / 100 then none
    else some (((current_count - prev_count : Nat) : ℚ) / elapsed_secs)

/-- The read half of `ModuleState::collect` for one series: load the count,
derive `pending` (duration since `pending_since`, in microseconds), compute the
rate from the memo, and write back the new `(count, now)` memo. `backlog` is
left `None` (the SDK computes backlog at `GlobalState` level). -/
def collectRead (now : Nat) (s : SeriesState) : ReadMetrics × SeriesState :=
  let count := s.count
  let pending := s.pending_since.map (fun since => (now - since) / 1000)
  let rate := compute_rate s.prev_snapshot count now
  (⟨count, none, pending, rate⟩, { s with prev_snapshot := some (count, now) })

/-- The write half of `ModuleState::collect` for one series. -/
def collectWrite (now : Nat) (s : SeriesState) : WriteMetrics × SeriesState :=
  let count := s.count
  let pending := s.pending_since.map (fun since => (now - since) / 1000)
  let rate := compute_rate s.prev_snapshot count now
  (⟨count, pending, rate⟩, { s with prev_snapshot := some (count, now) })

/-- `ModuleState`: topic-indexed read and write series. -/
structure ModuleState where
  reads : List (String × SeriesState)
  writes : List (String × SeriesState)
  deriving Repr, DecidableEq

/-- `ModuleState::default()`. -/
def ModuleState.init : ModuleState := ⟨[], []⟩

/-- `ModuleState::get_or_create_read` (the state change only; the returned
`Arc` is the map entry itself). -/
def ModuleState.get_or_create_read (topic : String) (m : ModuleState) :
    ModuleState :=
  match mapLookup topic m.reads with
  | some _ => m
  | none => { m with reads := mapInsert topic SeriesState.init m.reads }

/-- `ModuleState::get_or_create_write` (state change only). -/
def ModuleState.get_or_create_write (topic : String) (m : ModuleState) :
    ModuleState :=
  match mapLookup topic m.writes with
  | some _ => m
  | none => { m with writes := mapInsert topic SeriesState.init m.writes }

/-- `ModuleHandle::record_read` restricted to one module: get-or-create the
series, then `fetch_add` the count. -/
def ModuleState.record_read (topic : String) (k : Nat) (m : ModuleState) :
    ModuleState :=
  let m := m.get_or_create_read topic
  { m with reads := mapUpdate topic (fun s => { s with count := s.count + k }) m.reads }

/-- The module-local part of `ModuleHandle::record_write`. -/
def ModuleState.record_write (topic : String) (k : Nat) (m : ModuleState) :
    ModuleState :=
  let m := m.get_or_create_write topic
  { m with writes := mapUpdate topic (fun s => { s with count := s.count + k }) m.writes }

/-- `ModuleState::collect`: read out every series with a single `now`, also
updating each series' rate memo. -/
def ModuleState.collect (now : Nat) (m : ModuleState) :
    ModuleMetrics × ModuleState :=
  let rres := m.reads.map (fun p => (p.1, collectRead now p.2))
  let wres := m.writes.map (fun p => (p.1, collectWrite now p.2))
  (⟨rres.map (fun p => (p.1, p.2.1)), wres.map (fun p => (p.1, p.2.1))⟩,
   ⟨rres.map (fun p => (p.1, p.2.2)), wres.map (fun p => (p.1, p.2.2))⟩)

/-- `GlobalState`: registry of module series plus the per-topic global write
counters. `modules` binds a name to the allocation index of its live series;
`heap`/`nextId` model `Arc` allocation (see the header comment). -/
structure GlobalState where
  modules : List (String × Nat)
  nextId : Nat
  heap : Nat → ModuleState
  topic_write_counts : List (String × Nat)

/-- The empty registry (`GlobalState::default()`). -/
def GlobalState.init : GlobalState := ⟨[], 0, fun _ => ModuleState.init, []⟩

/-- `GlobalState::register_module`: return the existing series' handle, or
allocate a fresh series and bind the name to it. -/
def GlobalState.register_module (name : String) (g : GlobalState) :
    Nat × GlobalState :=
  match mapLookup name g.modules with
  | some id => (id, g)
  | none =>
    (g.nextId,
     { g with
       modules := mapInsert name g.nextId g.modules
       nextId := g.nextId + 1
       heap := fun i => if i = g.nextId then ModuleState.init else g.heap i })

/-- `GlobalState::unregister_module`: drop the name from the registry (the
series itself stays reachable through outstanding handles); `true` iff the
module was present. Global topic write counters are untouched. -/
def GlobalState.unregister_module (name : String) (g : GlobalState) :
    Bool × GlobalState :=
  ((mapLookup name g.modules).isSome, { g with modules := mapRemove name g.modules })

/-- `ModuleHandle::record_read` through a handle (an allocation index): the
orphaned series is still mutated after `unregister`. -/
def GlobalState.handle_record_read (id : Nat) (topic : String) (k : Nat)
    (g : GlobalState) : GlobalState :=
  { g with heap := fun i => if i = id then (g.heap id).record_read topic k else g.heap i }

/-- `ModuleHandle::record_write` through a handle: bumps the module series and
the global per-topic write counter (`get_topic_write_counter` + `fetch_add`). -/
def GlobalState.handle_record_write (id : Nat) (topic : String) (k : Nat)
    (g : GlobalState) : GlobalState :=
  { g with
    heap := fun i => if i = id then (g.heap id).record_write topic k else g.heap i
    topic_write_counts :=
      match mapLookup topic g.topic_write_counts with
      | some c => mapUpdate topic (fun _ => c + k) g.topic_write_counts
      | none => mapInsert topic k g.topic_write_counts }

/-- The backlog fix-up inside `GlobalState::collect`: if a global write counter
exists for the topic and strictly exceeds the read count, set
`backlog = total − count`. -/
def applyBacklog (tw : List (String × Nat)) (p : String × ReadMetrics) :
    String × ReadMetrics :=
  match mapLookup p.1 tw with
  | some total =>
    if p.2.count < total then (p.1, { p.2 with backlog := some (total - p.2.count) })
    else p
  | none => p

/-- The backlog pass of `GlobalState::collect` over one module's metrics. -/
def fixModule (tw : List (String × Nat)) (mm : ModuleMetrics) : ModuleMetrics :=
  { mm with reads := mm.reads.map (applyBacklog tw) }

/-- The module loop of `GlobalState::collect`: collect each registered module
in registry order, apply the backlog fix-up to its read metrics, and insert the
result into the snapshot's module map; series memo updates are threaded through
the heap. -/
def collectModules (tw : List (String × Nat)) (now : Nat) :
    List (String × Nat) → (Nat → ModuleState) →
    List (String × ModuleMetrics) × (Nat → ModuleState)
  | [], heap => ([], heap)
  | (name, id) :: rest, heap =>
    let res := (heap id).collect now
    let tail := collectModules tw now rest
      (fun i => if i = id then res.2 else heap i)
    (mapInsert name (fixModule tw res.1) tail.1, tail.2)

/-- `GlobalState::collect`: assemble a `Snapshot` of all registered modules.
`now` is the monotonic instant, `ts` the wall-clock milliseconds. -/
def GlobalState.collect (now ts : Nat) (g : GlobalState) :
    Snapshot × GlobalState :=
  let res := collectModules g.topic_write_counts now g.modules g.heap
  (⟨SchemaVersion.current, ts, res.1⟩, { g with heap := res.2 })

/-! ## Series operation traces

A single read (or write) series is mutated by `record_*` (`fetch_add`) and by
`collect` (which reads the counter and refreshes the rate memo).  `collectRead`
and `collectWrite` perform the same state update, so one trace type covers
both. -/

/-- One operation on a topic series. -/
inductive SeriesOp where
  | record (k : Nat)
  | collect (now : Nat)
  deriving Repr, DecidableEq

/-- Apply one operation to the series state. -/
def SeriesState.applyOp (s : SeriesState) : SeriesOp → SeriesState
  | .record k => { s with count := s.count + k }
  | .collect now => (collectRead now s).2

/-- Apply a trace of operations in order. -/
def SeriesState.applyOps (s : SeriesState) (ops : List SeriesOp) : SeriesState :=
  ops.foldl SeriesState.applyOp s

/-! ## Prometheus exposition (`buswatch-sdk/src/prometheus.rs`) -/

/-- Replace every occurrence of the character `c` by `rep`
(Rust `str::replace(char, &str)`). -/
def replaceChar (c : Char) (rep : List Char) (s : List Char) : List Char :=
  (s.map (fun ch => if ch = c then rep else [ch])).flatten

/-- `escape_label_value`: escape backslash, double quote and newline, in that
order. -/
def escape_label_value (s : String) : String :=
  String.mk (replaceChar '\n' ['\\', 'n']
    (replaceChar '"' ['\\', '"']
      (replaceChar '\\' ['\\', '\\'] s.data)))

/-- Render a natural number `n` as the decimal `n / 10^d` with exactly `d`
digits after the point.  This is Rust's `{:.d}` formatting of the exact value;
the `f64` detour in the source is exact for every value exercised here. -/
def fmtScaled (d n : Nat) : String :=
  let frac := toString (n % 10 ^ d)
  toString (n / 10 ^ d) ++ "." ++
    String.mk (List.replicate (d - frac.length) '0') ++ frac

/-- Rust `{:.d}` formatting of a nonnegative rational: round half to even at
`d` decimals, then print with `d` digits after the point. -/
def fmtFixedQ (d : Nat) (q : ℚ) : String :=
  let scaled := q.num.toNat * 10 ^ d
  let den := q.den
  let quot := scaled / den
  let rem := scaled % den
  let rounded :=
    if den < 2 * rem then quot + 1
    else if 2 * rem < den then quot
    else if quot % 2 = 0 then quot else quot + 1
  fmtScaled d rounded

/-- The `# HELP` / `# TYPE` preamble of `format_prometheus`. -/
def promHeaders (pre : String) : String :=
  "# HELP " ++ pre ++ "buswatch_read_count Total number of messages read from a topic\n" ++
  "# TYPE " ++ pre ++ "buswatch_read_count counter\n" ++
  "# HELP " ++ pre ++ "buswatch_write_count Total number of messages written to a topic\n" ++
  "# TYPE " ++ pre ++ "buswatch_write_count counter\n" ++
  "# HELP " ++ pre ++ "buswatch_read_backlog Number of unread messages in topic backlog\n" ++
  "# TYPE " ++ pre ++ "buswatch_read_backlog gauge\n" ++
  "# HELP " ++ pre ++ "buswatch_read_pending_seconds Time spent waiting for a read operation\n" ++
  "# TYPE " ++ pre ++ "buswatch_read_pending_seconds gauge\n" ++
  "# HELP " ++ pre ++ "buswatch_write_pending_seconds Time spent waiting for a write operation\n" ++
  "# TYPE " ++ pre ++ "buswatch_write_pending_seconds gauge\n" ++
  "# HELP " ++ pre ++ "buswatch_read_rate_per_second Messages read per second\n" ++
  "# TYPE " ++ pre ++ "buswatch_read_rate_per_second gauge\n" ++
  "# HELP " ++ pre ++ "buswatch_write_rate_per_second Messages written per second\n" ++
  "# TYPE " ++ pre ++ "buswatch_write_rate_per_second gauge\n"

/-- The metric lines emitted for one read series. -/
def promReadLines (pre labels : String) (read : ReadMetrics) : String :=
  pre ++ "buswatch_read_count\x7b" ++ labels ++ "\x7d " ++ toString read.count ++ "\n" ++
  (match read.backlog with
   | some backlog =>
     pre ++ "buswatch_read_backlog\x7b" ++ labels ++ "\x7d " ++ toString backlog ++ "\n"
   | none => "") ++
  (match read.pending with
   | some pending =>
     pre ++ "buswatch_read_pending_seconds\x7b" ++ labels ++ "\x7d " ++
       fmtScaled 6 pending ++ "\n"
   | none => "") ++
  (match read.rate with
   | some rate =>
     pre ++ "buswatch_read_rate_per_second\x7b" ++ labels ++ "\x7d " ++
       fmtFixedQ 2 rate ++ "\n"
   | none => "")

/-- The metric lines emitted for one write series. -/
def promWriteLines (pre labels : String) (write : WriteMetrics) : String :=
  pre ++ "buswatch_write_count\x7b" ++ labels ++ "\x7d " ++ toString write.count ++ "\n" ++
  (match write.pending with
   | some pending =>
     pre ++ "buswatch_write_pending_seconds\x7b" ++ labels ++ "\x7d " ++
       fmtScaled 6 pending ++ "\n"
   | none => "") ++
  (match write.rate with
   | some rate =>
     pre ++ "buswatch_write_rate_per_second\x7b" ++ labels ++ "\x7d " ++
       fmtFixedQ 2 rate ++ "\n"
   | none => "")

/-- `format_prometheus`: preamble, per-module metric lines, then the snapshot
timestamp (milliseconds rendered as seconds with three decimals). -/
def format_prometheus (snapshot : Snapshot) (ns : Option String) : String :=
  let pre := match ns with
    | some n => n ++ "_"
    | none => ""
  let body := String.join (snapshot.modules.map (fun m =>
    let module_label := escape_label_value m.1
    String.join (m.2.reads.map (fun p =>
      promReadLines pre
        ("module=\"" ++ module_label ++ "\",topic=\"" ++ escape_label_value p.1 ++ "\"")
        p.2)) ++
    String.join (m.2.writes.map (fun p =>
      promWriteLines pre
        ("module=\"" ++ module_label ++ "\",topic=\"" ++ escape_label_value p.1 ++ "\"")
        p.2))))
  promHeaders pre ++ body ++
  "# HELP " ++ pre ++ "buswatch_snapshot_timestamp_seconds Unix timestamp of the snapshot\n" ++
  "# TYPE " ++ pre ++ "buswatch_snapshot_timestamp_seconds gauge\n" ++
  pre ++ "buswatch_snapshot_timestamp_seconds " ++ fmtScaled 3 snapshot.timestamp_ms ++ "\n"

/-- Split a character list into lines at newline characters. -/
def splitLinesChars (s : List Char) : List (List Char) := s.splitOn '\n'

/-- Whether the rendered output contains `line` as one of its newline-separated
lines. -/
def containsLine (line out : String) : Bool :=
  (splitLinesChars out.data).contains line.data

/-- Whether some newline-separated line of `out` starts with `pre`. -/
def someLineStartsWith (pre out : String) : Bool :=
  (splitLinesChars out.data).any (fun l => pre.data.isPrefixOf l)

/-! ## Snapshot JSON schema and the viewer's parser

`Output::File` writes `serde_json::to_string_pretty(snapshot)`; the `Json` type
below captures the written document up to whitespace.  The viewer's file-poll
source feeds the file contents to `serde_json::from_str::<MonitorSnapshot>`
(`src/source/{file,snapshot}.rs`), embedded here as `parseMonitorSnapshot`. -/

/-- A JSON document.  Numbers are modelled over `ℚ` (JSON numbers are decimal
literals; every value emitted by the embedded code is rational). -/
inductive Json where
  | null
  | bool (b : Bool)
  | num (q : ℚ)
  | str (s : String)
  | arr (elems : List Json)
  | obj (fields : List (String × Json))

/-- Top-level keys of a JSON object. -/
def Json.keys : Json → List String
  | .obj fields => fields.map Prod.fst
  | _ => []

/-- Field access on a JSON object. -/
def Json.getField (j : Json) (k : String) : Option Json :=
  match j with
  | .obj fields => mapLookup k fields
  | _ => none

/-- serde serialization of `ReadMetrics`: declaration order, `None` fields
skipped (`skip_serializing_if = "Option::is_none"`). -/
def readMetricsToJson (r : ReadMetrics) : Json :=
  .obj ([("count", Json.num r.count)] ++
    (match r.backlog with
     | some b => [("backlog", Json.num b)]
     | none => []) ++
    (match r.pending with
     | some p => [("pending", Json.num p)]
     | none => []) ++
    (match r.rate with
     | some q => [("rate", Json.num q)]
     | none => []))

/-- serde serialization of `WriteMetrics`. -/
def writeMetricsToJson (w : WriteMetrics) : Json :=
  .obj ([("count", Json.num w.count)] ++
    (match w.pending with
     | some p => [("pending", Json.num p)]
     | none => []) ++
    (match w.rate with
     | some q => [("rate", Json.num q)]
     | none => []))

/-- serde serialization of `ModuleMetrics`. -/
def moduleMetricsToJson (m : ModuleMetrics) : Json :=
  .obj [("reads", .obj (m.reads.map (fun p => (p.1, readMetricsToJson p.2)))),
        ("writes", .obj (m.writes.map (fun p => (p.1, writeMetricsToJson p.2))))]

/-- serde serialization of `Snapshot`: the document written by the File
emitter. -/
def snapshotToJson (s : Snapshot) : Json :=
  .obj [("version", .obj [("major", Json.num s.version.major),
                          ("minor", Json.num s.version.minor)]),
        ("timestamp_ms", Json.num s.timestamp_ms),
        ("modules", .obj (s.modules.map (fun p => (p.1, moduleMetricsToJson p.2))))]

/-- `SerializedReadStreamState` from `src/source/snapshot.rs`. -/
structure SerializedReadStreamState where
  read : Nat
  unread : Option Nat
  pending_for : Option String
  deriving Repr, DecidableEq

/-- `SerializedWriteStreamState` from `src/source/snapshot.rs`. -/
structure SerializedWriteStreamState where
  written : Nat
  pending_for : Option String
  deriving Repr, DecidableEq

/-- `SerializedModuleState` from `src/source/snapshot.rs`. -/
structure SerializedModuleState where
  reads : List (String × SerializedReadStreamState)
  writes : List (String × SerializedWriteStreamState)
  deriving Repr, DecidableEq

/-- `MonitorSnapshot`: module name → serialized module state. -/
abbrev MonitorSnapshot := List (String × SerializedModuleState)

/-- serde deserialization of a `u64`: an integral, nonnegative JSON number. -/
def parseU64 : Json → Option Nat
  | .num q => if q.den = 1 ∧ 0 ≤ q.num then some q.num.toNat else none
  | _ => none

/-- serde deserialization of an `Option<u64>` field: absent or `null` is
`None`. -/
def parseOptU64 (fields : List (String × Json)) (key : String) :
    Option (Option Nat) :=
  match mapLookup key fields with
  | none => some none
  | some .null => some none
  | some j => (parseU64 j).map some

/-- serde deserialization of an `Option<String>` field. -/
def parseOptString (fields : List (String × Json)) (key : String) :
    Option (Option String) :=
  match mapLookup key fields with
  | none => some none
  | some .null => some none
  | some (.str s) => some (some s)
  | some _ => none

/-- serde deserialization of `SerializedReadStreamState` (`read` required;
unknown fields ignored). -/
def parseReadStream (j : Json) : Option SerializedReadStreamState :=
  match j with
  | .obj fields => do
    let read ← (mapLookup "read" fields).bind parseU64
    let unread ← parseOptU64 fields "unread"
    let pf ← parseOptString fields "pending_for"
    pure ⟨read, unread, pf⟩
  | _ => none

/-- serde deserialization of `SerializedWriteStreamState` (`written`
required). -/
def parseWriteStream (j : Json) : Option SerializedWriteStreamState :=
  match j with
  | .obj fields => do
    let written ← (mapLookup "written" fields).bind parseU64
    let pf ← parseOptString fields "pending_for"
    pure ⟨written, pf⟩
  | _ => none

/-- serde deserialization of a `BTreeMap<String, V>`: a JSON object all of
whose values parse. -/
def parseStreamMap (f : Json → Option β) : Json → Option (List (String × β))
  | .obj fields => fields.mapM (fun p => (f p.2).map (fun b => (p.1, b)))
  | _ => none

/-- serde deserialization of `SerializedModuleState` (`reads` and `writes` both
required). -/
def parseModuleState (j : Json) : Option SerializedModuleState :=
  match j with
  | .obj fields => do
    let reads ← (mapLookup "reads" fields).bind (parseStreamMap parseReadStream)
    let writes ← (mapLookup "writes" fields).bind (parseStreamMap parseWriteStream)
    pure ⟨reads, writes⟩
  | _ => none

/-- serde deserialization of `MonitorSnapshot`, the parser run by
`FileSource::read_file`. -/
def parseMonitorSnapshot (j : Json) : Option MonitorSnapshot :=
  match j with
  | .obj fields => fields.mapM (fun p => (parseModuleState p.2).map (fun m => (p.1, m)))
  | _ => none

/-! ## TUI data model (`src/data/monitor.rs`, `src/data/duration.rs`) -/

/-- `HealthStatus` with its derived order `Healthy < Warning < Critical`. -/
inductive HealthStatus where
  | Healthy
  | Warning
  | Critical
  deriving Repr, DecidableEq

/-- Rank realizing the derived `Ord`. -/
def HealthStatus.rank : HealthStatus → Nat
  | .Healthy => 0
  | .Warning => 1
  | .Critical => 2

/-- `Ord::max` on `HealthStatus`. -/
def hsMax (a b : HealthStatus) : HealthStatus := if a.rank < b.rank then b else a

/-- `Iterator::max` over statuses. -/
def hsListMax : List HealthStatus → Option HealthStatus
  | [] => none
  | h :: t => some (t.foldl hsMax h)

/-- `Ordering` comparison of naturals (`u64::cmp`). -/
def natCmp (a b : Nat) : Ordering :=
  if a < b then .lt else if b < a then .gt else .eq

/-- `Ordering` comparison of strings (`String::cmp`). -/
def strCmp (a b : String) : Ordering :=
  if strLt a b then .lt else if strLt b a then .gt else .eq

/-- `Ordering` comparison of health statuses. -/
def hsCmp (a b : HealthStatus) : Ordering := natCmp a.rank b.rank

/-- Rust `sort_by(cmp)`: a stable sort placing `a` before `b` when
`cmp a b ≠ Greater`. -/
def sortByCmp (cmp : α → α → Ordering) (l : List α) : List α :=
  l.mergeSort (fun a b => cmp a b != .gt)

/-- Health thresholds (`Thresholds`); durations in nanoseconds. -/
structure Thresholds where
  pending_warning : Nat
  pending_critical : Nat
  unread_warning : Nat
  unread_critical : Nat
  deriving Repr, DecidableEq

/-- `Thresholds::default()`: 1 s, 10 s, 1000, 5000. -/
def Thresholds.default : Thresholds :=
  ⟨1000000000, 10000000000, 1000, 5000⟩

/-- `TopicRead` (durations in nanoseconds). -/
structure TopicRead where
  topic : String
  read : Nat
  pending_for : Option Nat
  unread : Option Nat
  status : HealthStatus
  deriving Repr, DecidableEq

/-- `TopicWrite`. -/
structure TopicWrite where
  topic : String
  written : Nat
  pending_for : Option Nat
  status : HealthStatus
  deriving Repr, DecidableEq

/-- `ModuleData`. -/
structure ModuleData where
  name : String
  reads : List TopicRead
  writes : List TopicWrite
  total_read : Nat
  total_written : Nat
  health : HealthStatus
  deriving Repr, DecidableEq

/-- `MonitorData`; `last_updated` is an instant in nanoseconds. -/
structure MonitorData where
  modules : List ModuleData
  last_updated : Nat
  deriving Repr, DecidableEq

/-- `MonitorData::compute_read_status`: worst of the pending status and the
unread status. -/
def computeReadStatus (pending_for : Option Nat) (unread : Option Nat)
    (th : Thresholds) : HealthStatus :=
  let pending_status := match pending_for with
    | none => HealthStatus.Healthy
    | some d =>
      if th.pending_critical ≤ d then .Critical
      else if th.pending_warning ≤ d then .Warning
      else .Healthy
  let unread_status := match unread with
    | none => HealthStatus.Healthy
    | some u =>
      if th.unread_critical ≤ u then .Critical
      else if th.unread_warning ≤ u then .Warning
      else .Healthy
  hsMax pending_status unread_status

/-- `MonitorData::compute_write_status`. -/
def computeWriteStatus (pending_for : Option Nat) (th : Thresholds) :
    HealthStatus :=
  match pending_for with
  | none => HealthStatus.Healthy
  | some d =>
    if th.pending_critical ≤ d then .Critical
    else if th.pending_warning ≤ d then .Warning
    else .Healthy

/-- Leading decimal digits of a character list, and the rest. -/
def splitDigits : List Char → List Char × List Char
  | [] => ([], [])
  | c :: cs =>
    if c.isDigit then
      let r := splitDigits cs
      (c :: r.1, r.2)
    else ([], c :: cs)

/-- Value of a decimal digit string. -/
def digitsVal (ds : List Char) : Nat :=
  ds.foldl (fun a c => a * 10 + (c.toNat - 48)) 0

/-- `str::parse::<f64>` on the numeric-literal forms (sign, mantissa, optional
exponent), with the parsed value taken exactly over `ℚ`. -/
def parseF64 (s : String) : Option ℚ :=
  let p1 : ℚ × List Char := match s.data with
    | '+' :: cs => (1, cs)
    | '-' :: cs => (-1, cs)
    | cs => (1, cs)
  let ip := splitDigits p1.2
  let fp : List Char × List Char := match ip.2 with
    | '.' :: cs => splitDigits cs
    | _ => ([], ip.2)
  if ip.1.isEmpty ∧ fp.1.isEmpty then none
  else
    let mant : ℚ := (digitsVal ip.1 : ℚ) + (digitsVal fp.1 : ℚ) / ((10 : ℚ) ^ fp.1.length)
    match fp.2 with
    | [] => some (p1.1 * mant)
    | e :: cs =>
      if e = 'e' ∨ e = 'E' then
        let pe : Int × List Char := match cs with
          | '+' :: cs2 => (1, cs2)
          | '-' :: cs2 => (-1, cs2)
          | cs2 => (1, cs2)
        let ed := splitDigits pe.2
        if ed.1.isEmpty ∨ ¬ ed.2.isEmpty then none
        else some (p1.1 * mant * (10 : ℚ) ^ (pe.1 * (digitsVal ed.1 : Int)))
      else none

/-- Rust `as u64` on a (non-NaN) float value: truncate toward zero, saturating
at `0` and `u64::MAX`. -/
def toU64 (q : ℚ) : Nat :=
  if q ≤ 0 then 0 else min q.floor.toNat (2 ^ 64 - 1)

/-- The suffix table of `src/data/duration.rs` (multipliers to nanoseconds;
longer suffixes first). -/
def UNITS : List (String × ℚ) :=
  [("ns", 1), ("µs", 1000), ("us", 1000), ("ms", 1000000), ("s", 1000000000)]

/-- `str::strip_suffix` over character lists. -/
def stripSuffixChars (suf s : List Char) : Option (List Char) :=
  if suf.isSuffixOf s then some (s.take (s.length - suf.length)) else none

/-- The suffix loop of `parse_duration`: on a suffix match the numeric parse
result is final (a parse failure is an error, not a fallthrough). -/
def parseDurationUnits : List (String × ℚ) → String → Option Nat
  | [], _ => none
  | (suf, mult) :: rest, s =>
    match stripSuffixChars suf.data s.data with
    | some val_cs =>
      match parseF64 (String.mk val_cs) with
      | some v => some (toU64 (v * mult))
      | none => none
    | none => parseDurationUnits rest s

/-- `parse_duration`: trim, then try each unit suffix; result in
nanoseconds. -/
def parse_duration (s : String) : Option Nat :=
  parseDurationUnits UNITS s.trim

/-- The per-module part of `MonitorData::from_snapshot` (`parse_module`). -/
def parseModuleData (name : String) (state : SerializedModuleState)
    (th : Thresholds) : ModuleData :=
  let reads := state.reads.map (fun p =>
    let pending_for := p.2.pending_for.bind parse_duration
    TopicRead.mk p.1 p.2.read pending_for p.2.unread
      (computeReadStatus pending_for p.2.unread th))
  let writes := state.writes.map (fun p =>
    let pending_for := p.2.pending_for.bind parse_duration
    TopicWrite.mk p.1 p.2.written pending_for
      (computeWriteStatus pending_for th))
  let reads := sortByCmp
    (fun a b => (hsCmp b.status a.status).then (strCmp a.topic b.topic)) reads
  let writes := sortByCmp
    (fun a b => (hsCmp b.status a.status).then (strCmp a.topic b.topic)) writes
  let total_read := (reads.map TopicRead.read).sum
  let total_written := (writes.map TopicWrite.written).sum
  let health :=
    (hsListMax (reads.map TopicRead.status ++ writes.map TopicWrite.status)).getD .Healthy
  ⟨name, reads, writes, total_read, total_written, health⟩

/-- `MonitorData::from_snapshot`: parse every module, then sort by health
descending, name ascending; `now` stands for `Instant::now()`. -/
def MonitorData.from_snapshot (now : Nat) (snapshot : MonitorSnapshot)
    (th : Thresholds) : MonitorData :=
  let modules := snapshot.map (fun p => parseModuleData p.1 p.2 th)
  let modules := sortByCmp
    (fun a b => (hsCmp b.health a.health).then (strCmp a.name b.name)) modules
  ⟨modules, now⟩

/-! ## History and sparklines (`src/data/history.rs`, `src/ui/summary.rs`) -/

/-- `MAX_HISTORY_SIZE`. -/
def MAX_HISTORY_SIZE : Nat := 60

/-- `History`; the source `HashMap`s are modelled as ordered maps (lookup
semantics coincide). -/
structure History where
  module_reads : List (String × List Nat)
  module_writes : List (String × List Nat)
  timestamps : List Nat
  deriving Repr, DecidableEq

/-- `History::new()`. -/
def History.init : History := ⟨[], [], []⟩

/-- `push_back` then `pop_front` past the capacity. -/
def pushCap (x : α) (l : List α) : List α :=
  let l := l ++ [x]
  if MAX_HISTORY_SIZE < l.length then l.tail else l

/-- `History::record`. -/
def History.record (data : MonitorData) (h : History) : History :=
  let h := data.modules.foldl (fun hh m =>
    { hh with
      module_reads :=
        mapInsert m.name (pushCap m.total_read ((mapLookup m.name hh.module_reads).getD []))
          hh.module_reads
      module_writes :=
        mapInsert m.name (pushCap m.total_written ((mapLookup m.name hh.module_writes).getD []))
          hh.module_writes }) h
  { h with timestamps := pushCap data.last_updated h.timestamps }

/-- `History::normalize_sparkline`: per-tick deltas, normalized into `0..=7`
against the range `[min(min_delta, 0), max(max_delta, 1)]` (width at least 1).
The `f64` product-and-truncate of the source is the exact
`(v − mn) * 7 / range` floor here. -/
def normalize_sparkline (data : Option (List Nat)) : List Nat :=
  match data with
  | none => []
  | some values =>
    if values.length < 2 then []
    else
      let deltas : List Int :=
        (values.zip (values.drop 1)).map (fun p => (p.2 : Int) - (p.1 : Int))
      if deltas.isEmpty then []
      else
        let mx := max ((deltas.max?).getD 1) 1
        let mn := min ((deltas.min?).getD 0) 0
        let range := max (mx - mn) 1
        deltas.map (fun v => min ((v - mn) * 7 / range).toNat 7)

/-- `History::get_reads_sparkline`. -/
def get_reads_sparkline (module_name : String) (h : History) : List Nat :=
  normalize_sparkline (mapLookup module_name h.module_reads)

/-- Modelled from the spec (§4.5 History): "linearly normalize each delta into
0..=7 against the observed [min, max] range for the series" — the range is the
observed minimum to the observed maximum of the delta sequence (guarded to
width ≥ 1 against a degenerate range, which the comparison below avoids). -/
def specNormalizeSparkline (values : List Nat) : List Nat :=
  if values.length < 2 then []
  else
    let deltas : List Int :=
      (values.zip (values.drop 1)).map (fun p => (p.2 : Int) - (p.1 : Int))
    if deltas.isEmpty then []
    else
      let mx := (deltas.max?).getD 0
      let mn := (deltas.min?).getD 0
      let range := max (mx - mn) 1
      deltas.map (fun v => min ((v - mn) * 7 / range).toNat 7)

/-- `SPARKLINE_CHARS` from `src/ui/summary.rs`. -/
def SPARKLINE_CHARS : List Char := ['▁', '▂', '▃', '▄', '▅', '▆', '▇', '█']

/-- `render_sparkline`: eight spaces when empty, otherwise the last eight
levels mapped through `SPARKLINE_CHARS` (index clamped to 7). -/
def render_sparkline (data : List Nat) : String :=
  if data.isEmpty then "        "
  else String.mk ((data.reverse.take 8).reverse.map
    (fun v => SPARKLINE_CHARS.getD (min v 7) ' '))

/-! ## TUI export (`App::export_state`, `src/app.rs`) -/

/-- `format!("\x7b:?\x7d", health)`. -/
def healthDebug : HealthStatus → String
  | .Healthy => "Healthy"
  | .Warning => "Warning"
  | .Critical => "Critical"

/-- `serde_json::Map` built from a field list (`serde_json`'s default map is a
`BTreeMap`, so keys end up sorted regardless of insertion order). -/
def jsonObjOf (fields : List (String × Json)) : Json :=
  .obj (fields.foldl (fun acc p => mapInsert p.1 p.2 acc) [])

/-- `App::export_state` on loaded data: the JSON document written to the export
path (the `None`-data early error and the file write are outside the model). -/
def export_state (data : MonitorData) : Json :=
  let healthy := (data.modules.filter (fun m => decide (m.health = .Healthy))).length
  let warning := (data.modules.filter (fun m => decide (m.health = .Warning))).length
  let critical := (data.modules.filter (fun m => decide (m.health = .Critical))).length
  let summary := jsonObjOf
    [("total_modules", Json.num data.modules.length),
     ("healthy", Json.num healthy),
     ("warning", Json.num warning),
     ("critical", Json.num critical)]
  let modulesArr := Json.arr (data.modules.map (fun m =>
    jsonObjOf
      [("name", Json.str m.name),
       ("total_read", Json.num m.total_read),
       ("total_written", Json.num m.total_written),
       ("health", Json.str (healthDebug m.health))]))
  jsonObjOf [("summary", summary), ("modules", modulesArr)]

/-! ## File-poll source and `App::reload_data`
(`src/source/file.rs`, `src/app.rs`) -/

/-- `FileSource` state. -/
structure FileSource where
  last_error : Option String
  last_modified : Option Nat
  cached_snapshot : Option MonitorSnapshot
  deriving Repr, DecidableEq

/-- `FileSource::new` (path and description carry no behavior here). -/
def FileSource.init : FileSource := ⟨none, none, none⟩

/-- What one poll observes of the file system: the current mtime, and the
outcome of `fs::read_to_string` + `serde_json::from_str` if a read happens. -/
inductive ReadOutcome where
  | readErr (e : String)
  | parseErr (e : String)
  | parsed (snap : MonitorSnapshot)
  deriving Repr, DecidableEq

/-- A file-system view for one poll. -/
structure FsView where
  mtime : Option Nat
  readResult : ReadOutcome
  deriving Repr, DecidableEq

/-- `FileSource::read_file`: on success clear `last_error`, on a read or parse
error record it. -/
def FileSource.read_file (fs : FsView) (s : FileSource) :
    Option MonitorSnapshot × FileSource :=
  match fs.readResult with
  | .parsed snap => (some snap, { s with last_error := none })
  | .parseErr e => (none, { s with last_error := some ("Parse error: " ++ e) })
  | .readErr e => (none, { s with last_error := some ("Read error: " ++ e) })

/-- `FileSource::poll`: read only when the mtime advanced (or nothing was read
yet); only a successful read advances the mtime cursor. -/
def FileSource.poll (fs : FsView) (s : FileSource) :
    Option MonitorSnapshot × FileSource :=
  let current_modified := fs.mtime
  let file_changed := match s.last_modified, current_modified with
    | none, _ => true
    | some _, none => false
    | some last, some current => last < current
  if file_changed then
    match s.read_file fs with
    | (some snap, s') =>
      (some snap, { s' with last_modified := current_modified,
                            cached_snapshot := some snap })
    | (none, s') => (none, s')
  else (none, s)

/-- The slice of `App` state that `reload_data` reads or writes. -/
structure App where
  source : FileSource
  data : Option MonitorData
  history : History
  load_error : Option String
  thresholds : Thresholds
  selected_module_index : Nat
  deriving Repr, DecidableEq

/-- `App::reload_data` over a `FileSource`: a source error short-circuits to
`Ok(false)` without polling; otherwise poll, and on fresh data convert, record
history, store, clear the error and clamp the selection. -/
def App.reload_data (fs : FsView) (now : Nat) (app : App) : App × Bool :=
  match app.source.last_error with
  | some err => ({ app with load_error := some err }, false)
  | none =>
    match app.source.poll fs with
    | (some snapshot, src) =>
      let data := MonitorData.from_snapshot now snapshot app.thresholds
      let history := app.history.record data
      let idx :=
        if data.modules.length ≤ app.selected_module_index
        then data.modules.length - 1
        else app.selected_module_index
      ({ app with source := src, data := some data, history := history,
                  load_error := none, selected_module_index := idx }, true)
    | (none, src) => ({ app with source := src }, false)

/-- Iterate `reload_data` over successive polls, collecting the returned
booleans. -/
def App.reload_seq (steps : List (FsView × Nat)) (app : App) : App × List Bool :=
  match steps with
  | [] => (app, [])
  | (fs, now) :: rest =>
    let r := app.reload_data fs now
    let rr := App.reload_seq rest r.1
    (rr.1, r.2 :: rr.2)

/-! ## RabbitMQ adapter error classification
(`buswatch-adapters/src/{error,rabbitmq}.rs`) -/

/-- `AdapterError`: the adapter error taxonomy. -/
inductive AdapterError where
  | Http (msg : String)
  | Parse (msg : String)
  | Auth (msg : String)
  | Connection (msg : String)
  | Timeout
  | Unsupported (msg : String)
  deriving Repr, DecidableEq

/-- Modelled from the spec (§4.3, §7): the error kinds the spec names,
including the `NotFound` kind it assigns to single-queue 404 responses; the
code's taxonomy (`AdapterError`) has no such variant. -/
inductive SpecErrorKind where
  | http
  | parse
  | auth
  | connection
  | timeout
  | unsupported
  | notFound
  deriving Repr, DecidableEq

/-- The kind of a code-level adapter error. -/
def AdapterError.specKind : AdapterError → SpecErrorKind
  | .Http _ => .http
  | .Parse _ => .parse
  | .Auth _ => .auth
  | .Connection _ => .connection
  | .Timeout => .timeout
  | .Unsupported _ => .unsupported

/-- The facets of a `reqwest::Error` that the `From` conversion inspects. -/
structure ReqwestError where
  is_timeout : Bool
  is_connect : Bool
  msg : String
  deriving Repr, DecidableEq

/-- `impl From<reqwest::Error> for AdapterError`. -/
def adapterErrorFromReqwest (e : ReqwestError) : AdapterError :=
  if e.is_timeout then .Timeout
  else if e.is_connect then .Connection e.msg
  else .Http e.msg

/-- The fields of `QueueInfo` that the adapter consumes. -/
structure QueueInfo where
  name : String
  messages_ready : Nat
  consumers : Nat
  messages_delivered : Option Nat
  messages_published : Option Nat
  deriving Repr, DecidableEq

/-- The observable outcome of the HTTP request in `fetch_queue`: either a
response with a status and a body-parse result (`response.json()`), or a send
error. -/
inductive SendOutcome where
  | response (status : Nat) (body : Except String QueueInfo)
  | sendErr (e : ReqwestError)
  deriving Repr

/-- An ASCII single quote (kept out of string literals). -/
def sq : String := (Char.ofNat 39).toString

/-- `RabbitMqAdapter::fetch_queue` after the HTTP exchange: 401 ⇒ `Auth`,
404 ⇒ `Http` ("Queue … not found"), other non-2xx ⇒ `Http`, 2xx body parse
failure ⇒ `Parse`. -/
def fetch_queue (queue_name : String) (outcome : SendOutcome) :
    Except AdapterError QueueInfo :=
  match outcome with
  | .sendErr e => .error (adapterErrorFromReqwest e)
  | .response status body =>
    if status = 401 then .error (.Auth "Invalid credentials")
    else if status = 404 then
      .error (.Http ("Queue " ++ sq ++ queue_name ++ sq ++ " not found"))
    else if ¬ (200 ≤ status ∧ status ≤ 299) then
      .error (.Http ("API returned status " ++ toString status))
    else
      match body with
      | .ok q => .ok q
      | .error e => .error (.Parse e)

/-! ## Concrete values used by the scenario properties -/

/-- `50.5` (exact in `f64`). -/
def q50_5 : ℚ := ⟨101, 2, by norm_num, by norm_num⟩

/-- The S4 scenario snapshot of `prometheus.rs`: module `"my-service"` with
`reads["events"] = \x7bcount: 1000, backlog: 50, pending: 100 ms,
rate: 50.5\x7d` and `writes["output"] = \x7bcount: 500, rate: 25.0\x7d`. -/
def s4Snapshot : Snapshot :=
  ⟨SchemaVersion.current, 1703160000000,
   [("my-service",
     ⟨[("events", ⟨1000, some 50, some 100000, some q50_5⟩)],
      [("output", ⟨500, none, some 25⟩)]⟩)]⟩

/-- S1-style backlog scenario: a consumer that has read 70 of the 100 messages
globally written to `"events"`. -/
def backlogScenario : GlobalState :=
  ⟨[("consumer", 0), ("producer", 1)], 2,
   fun i =>
     if i = 0 then ⟨[("events", ⟨70, none, none⟩)], []⟩
     else if i = 1 then ⟨[], [("events", ⟨100, none, none⟩)]⟩
     else ModuleState.init,
   [("events", 100)]⟩

/-! # Theorems -/

theorem mem_mapInsert {α : Type} {k : String} {v : α} {l : List (String × α)} :
    ∀ x ∈ mapInsert k v l, x = (k, v) ∨ x ∈ l := by
  induction l with
  | nil =>
    intro x hx
    simp only [mapInsert, List.mem_singleton] at hx
    exact Or.inl hx
  | cons hd tl ih =>
    intro x hx
    obtain ⟨k', v'⟩ := hd
    simp only [mapInsert] at hx
    split_ifs at hx with h1 h2
    · rcases List.mem_cons.mp hx with h | h
      · exact Or.inl h
      · exact Or.inr h
    · rcases List.mem_cons.mp hx with h | h
      · exact Or.inl h
      · exact Or.inr (List.mem_cons_of_mem _ h)
    · rcases List.mem_cons.mp hx with h | h
      · exact Or.inr (h ▸ List.mem_cons_self _ _)
      · rcases ih x h with h' | h'
        · exact Or.inl h'
        · exact Or.inr (List.mem_cons_of_mem _ h')

theorem mapLookup_mapInsert {α : Type} (q k : String) (v : α)
    (l : List (String × α)) :
    mapLookup q (mapInsert k v l) = if q = k then some v else mapLookup q l := by
  induction l with
  | nil => simp [mapInsert, mapLookup]
  | cons hd tl ih =>
    obtain ⟨k', v'⟩ := hd
    by_cases h1 : strLt k k'
    · simp only [mapInsert, if_pos h1]
      by_cases hq : q = k <;> simp [mapLookup, hq]
    · by_cases h2 : k = k'
      · simp only [mapInsert, if_neg h1, if_pos h2]
        subst h2
        by_cases hq : q = k <;> simp [mapLookup, hq]
      · simp only [mapInsert, if_neg h1, if_neg h2]
        by_cases hq : q = k'
        · have hqk : ¬ q = k := fun he => h2 (he.symm.trans hq)
          have hk'k : ¬ k' = k := fun he => h2 he.symm
          simp [mapLookup, hq, hqk, hk'k]
        · simp only [mapLookup, if_neg hq]
          rw [ih]

theorem mapLookup_eq_none {α : Type} {k : String} {l : List (String × α)}
    (h : ∀ p ∈ l, p.1 ≠ k) : mapLookup k l = none := by
  induction l with
  | nil => rfl
  | cons hd tl ih =>
    obtain ⟨k', v'⟩ := hd
    have hk : ¬ k = k' := fun he => h (k', v') (List.mem_cons_self _ _) he.symm
    simp only [mapLookup, if_neg hk]
    exact ih fun p hp => h p (List.mem_cons_of_mem _ hp)

theorem mapRemove_sublist {α : Type} (k : String) (l : List (String × α)) :
    (mapRemove k l).Sublist l := by
  induction l with
  | nil => simp [mapRemove]
  | cons hd tl ih =>
    obtain ⟨k', v'⟩ := hd
    simp only [mapRemove]
    split_ifs
    · exact List.sublist_cons_self _ _
    · exact ih.cons₂ _

theorem mapLookup_mapRemove_self {α : Type} {k : String} {l : List (String × α)}
    (h : (l.map Prod.fst).Nodup) : mapLookup k (mapRemove k l) = none := by
  induction l with
  | nil => rfl
  | cons hd tl ih =>
    obtain ⟨k', v'⟩ := hd
    simp only [List.map_cons, List.nodup_cons] at h
    simp only [mapRemove]
    split_ifs with hk
    · subst hk
      exact mapLookup_eq_none fun p hp he =>
        h.1 (he ▸ List.mem_map_of_mem Prod.fst hp)
    · simp only [mapLookup, if_neg hk]
      exact ih h.2

theorem applyBacklog_fst (tw : List (String × Nat)) (p : String × ReadMetrics) :
    (applyBacklog tw p).1 = p.1 := by
  unfold applyBacklog
  rcases mapLookup p.1 tw with _ | w
  · rfl
  · dsimp only
    split_ifs <;> rfl

theorem collect_reads_eq (now : Nat) (ms : ModuleState) :
    ((ms.collect now).1).reads =
      ms.reads.map (fun p => (p.1, (collectRead now p.2).1)) := by
  simp only [ModuleState.collect]
  rw [List.map_map]
  rfl

theorem mem_fixModule_reads {tw : List (String × Nat)} {now : Nat}
    {ms : ModuleState} {t : String} {rm : ReadMetrics}
    (h : (t, rm) ∈ (fixModule tw ((ms.collect now).1)).reads) :
    ∃ s : SeriesState, (t, rm) = applyBacklog tw (t, (collectRead now s).1) := by
  simp only [fixModule, collect_reads_eq, List.map_map, List.mem_map] at h
  obtain ⟨p, _, heq⟩ := h
  have hfst : p.1 = t := by
    have h1 := congrArg Prod.fst heq
    simpa [applyBacklog_fst] using h1
  refine ⟨p.2, ?_⟩
  rw [← heq]
  simp only [Function.comp]
  rw [hfst]

theorem mem_collectModules {tw : List (String × Nat)} {now : Nat} :
    ∀ (mods : List (String × Nat)) (heap : Nat → ModuleState)
      {nm : String} {mm : ModuleMetrics},
      (nm, mm) ∈ (collectModules tw now mods heap).1 →
      ∃ ms : ModuleState, mm = fixModule tw ((ms.collect now).1) := by
  intro mods
  induction mods with
  | nil =>
    intro heap nm mm h
    simp [collectModules] at h
  | cons hd tl ih =>
    intro heap nm mm h
    obtain ⟨name, id⟩ := hd
    simp only [collectModules] at h
    rcases mem_mapInsert _ h with he | ht
    · exact ⟨heap id, congrArg Prod.snd he⟩
    · exact ih _ ht

/-- C1: in every snapshot assembled by `GlobalState::collect`, a read series'
`backlog` is `Some (global_write − read_count)` exactly when a global per-topic
write counter exists for the topic and strictly exceeds the loaded read count,
and `None` otherwise; every `Some` backlog is strictly positive. -/
theorem collect_backlog_spec (g : GlobalState) (now ts : Nat)
    (nm t : String) (mm : ModuleMetrics) (rm : ReadMetrics)
    (hm : (nm, mm) ∈ ((g.collect now ts).1).modules)
    (ht : (t, rm) ∈ mm.reads) :
    (∀ b, rm.backlog = some b ↔
      ∃ w, mapLookup t g.topic_write_counts = some w ∧ rm.count < w ∧
        b = w - rm.count)
    ∧ (∀ b, rm.backlog = some b → 0 < b) := by
  simp only [GlobalState.collect] at hm
  obtain ⟨ms, hms⟩ := mem_collectModules g.modules g.heap hm
  subst hms
  obtain ⟨s, hs⟩ := mem_fixModule_reads ht
  have hrm : rm = (applyBacklog g.topic_write_counts (t, (collectRead now s).1)).2 :=
    congrArg Prod.snd hs
  rcases hw : mapLookup t g.topic_write_counts with _ | w
  · have hb0 : rm.backlog = none := by
      rw [hrm]; simp [applyBacklog, hw, collectRead]
    constructor
    · intro b
      constructor
      · intro hb
        rw [hb0] at hb
        exact absurd hb (by simp)
      · rintro ⟨w, hw', _⟩
        exact absurd hw' (by simp)
    · intro b hb
      rw [hb0] at hb
      exact absurd hb (by simp)
  · by_cases hlt : s.count < w
    · have hbacklog : rm.backlog = some (w - s.count) := by
        rw [hrm]; simp [applyBacklog, collectRead, hw, hlt]
      have hcount : rm.count = s.count := by
        rw [hrm]; simp [applyBacklog, collectRead, hw, hlt]
      constructor
      · intro b
        constructor
        · intro hb
          rw [hbacklog] at hb
          refine ⟨w, rfl, ?_, ?_⟩
          · rw [hcount]; exact hlt
          · rw [hcount]; exact (Option.some_injective _ hb).symm
        · rintro ⟨w', hw', _, hb⟩
          obtain rfl : w = w' := Option.some_injective _ hw'
          rw [hbacklog, hb, hcount]
      · intro b hb
        rw [hbacklog] at hb
        obtain rfl : w - s.count = b := Option.some_injective _ hb
        exact Nat.sub_pos_of_lt hlt
    · have hb0 : rm.backlog = none := by
        rw [hrm]; simp [applyBacklog, collectRead, hw, hlt]
      have hcount : rm.count = s.count := by
        rw [hrm]; simp [applyBacklog, collectRead, hw, hlt]
      constructor
      · intro b
        constructor
        · intro hb
          rw [hb0] at hb
          exact absurd hb (by simp)
        · rintro ⟨w', hw', hltc, _⟩
          obtain rfl : w = w' := Option.some_injective _ hw'
          rw [hcount] at hltc
          exact absurd hltc hlt
      · intro b hb
        rw [hb0] at hb
        exact absurd hb (by simp)

/-- Witness for C1 at the S1-style scenario: the consumer's `"events"` read has
`backlog = Some 30 = Some (100 − 70)`. -/
theorem collect_backlog_spec_witness :
    (∀ b, (⟨70, some 30, none, none⟩ : ReadMetrics).backlog = some b ↔
      ∃ w, mapLookup "events" backlogScenario.topic_write_counts = some w ∧
        (⟨70, some 30, none, none⟩ : ReadMetrics).count < w ∧
        b = w - (⟨70, some 30, none, none⟩ : ReadMetrics).count)
    ∧ (∀ b, (⟨70, some 30, none, none⟩ : ReadMetrics).backlog = some b → 0 < b) :=
  collect_backlog_spec backlogScenario 0 0 "consumer" "events"
    ⟨[("events", ⟨70, some 30, none, none⟩)], []⟩ ⟨70, some 30, none, none⟩
    (by decide) (by decide)

theorem applyOp_memo_le {s : SeriesState}
    (h : ∀ pc pt, s.prev_snapshot = some (pc, pt) → pc ≤ s.count) (op : SeriesOp) :
    ∀ pc pt, (s.applyOp op).prev_snapshot = some (pc, pt) →
      pc ≤ (s.applyOp op).count := by
  cases op with
  | record k =>
    intro pc pt hp
    simp only [SeriesState.applyOp] at hp ⊢
    exact le_trans (h pc pt hp) (Nat.le_add_right _ _)
  | collect now =>
    intro pc pt hp
    simp only [SeriesState.applyOp, collectRead] at hp ⊢
    obtain ⟨h1, -⟩ := Prod.mk.injEq _ _ _ _ ▸ Option.some_injective _ hp
    exact le_of_eq h1.symm

theorem applyOps_memo_le (ops : List SeriesOp) :
    ∀ s : SeriesState,
      (∀ pc pt, s.prev_snapshot = some (pc, pt) → pc ≤ s.count) →
      ∀ pc pt, (s.applyOps ops).prev_snapshot = some (pc, pt) →
        pc ≤ (s.applyOps ops).count := by
  induction ops with
  | nil => intro s h; exact h
  | cons op rest ih =>
    intro s h
    exact ih (s.applyOp op) (applyOp_memo_le h op)

theorem applyOps_prev_none (ops : List SeriesOp) :
    ∀ s : SeriesState,
      ((s.applyOps ops).prev_snapshot = none ↔
        (s.prev_snapshot = none ∧ ∀ t, SeriesOp.collect t ∉ ops)) := by
  induction ops with
  | nil => intro s; simp [SeriesState.applyOps]
  | cons op rest ih =>
    intro s
    have hstep : s.applyOps (op :: rest) = (s.applyOp op).applyOps rest := rfl
    cases op with
    | record k =>
      rw [hstep, ih]
      have hprev : (s.applyOp (.record k)).prev_snapshot = s.prev_snapshot := rfl
      rw [hprev]
      constructor
      · rintro ⟨hp, hno⟩
        refine ⟨hp, fun t ht => ?_⟩
        rcases List.mem_cons.mp ht with he | ht'
        · cases he
        · exact hno t ht'
      · rintro ⟨hp, hno⟩
        exact ⟨hp, fun t ht => hno t (List.mem_cons_of_mem _ ht)⟩
    | collect tnow =>
      rw [hstep]
      constructor
      · intro h
        rcases (ih _).mp h with ⟨hp, -⟩
        exact absurd hp (by simp [SeriesState.applyOp, collectRead])
      · rintro ⟨-, hno⟩
        exact absurd (List.mem_cons_self _ _) (hno tnow)

/-- C2: for a read (or write) series, the rate reported by a collection is
`None` on the first collection (the memo is `None` exactly when the trace holds
no collect); afterwards it is the count delta over the elapsed seconds between
the two most recent collections, `None` whenever that elapsed time is below
10 ms; and the memo is updated to the observed `(count, now)`. -/
theorem collect_rate_spec (ops : List SeriesOp) (now : Nat) :
    ((SeriesState.init.applyOps ops).prev_snapshot = none ↔
      ∀ t, SeriesOp.collect t ∉ ops) ∧
    ((SeriesState.init.applyOps ops).prev_snapshot = none →
      (collectRead now (SeriesState.init.applyOps ops)).1.rate = none) ∧
    (∀ pc pt, (SeriesState.init.applyOps ops).prev_snapshot = some (pc, pt) →
      ((((now - pt : Nat) : ℚ) / 1000000000 < 1 / 100 →
        (collectRead now (SeriesState.init.applyOps ops)).1.rate = none) ∧
       (1 / 100 ≤ ((now - pt : Nat) : ℚ) / 1000000000 →
        (collectRead now (SeriesState.init.applyOps ops)).1.rate =
          some ((((SeriesState.init.applyOps ops).count : ℚ) - (pc : ℚ)) /
            (((now - pt : Nat) : ℚ) / 1000000000))))) ∧
    ((collectRead now (SeriesState.init.applyOps ops)).2.prev_snapshot =
      some ((SeriesState.init.applyOps ops).count, now)) ∧
    ((collectWrite now (SeriesState.init.applyOps ops)).1.rate =
      (collectRead now (SeriesState.init.applyOps ops)).1.rate) ∧
    ((collectWrite now (SeriesState.init.applyOps ops)).2 =
      (collectRead now (SeriesState.init.applyOps ops)).2) := by
  refine ⟨?_, ?_, ?_, rfl, rfl, rfl⟩
  · have h := applyOps_prev_none ops SeriesState.init
    simpa [SeriesState.init] using h
  · intro hp
    simp [collectRead, compute_rate, hp]
  · intro pc pt hp
    have hle : pc ≤ (SeriesState.init.applyOps ops).count :=
      applyOps_memo_le ops SeriesState.init (by simp [SeriesState.init]) pc pt hp
    constructor
    · intro hlt
      simp only [collectRead, compute_rate, hp]
      rw [if_pos hlt]
    · intro hge
      have hnlt : ¬ (((now - pt : Nat) : ℚ) / 1000000000 < 1 / 100) :=
        not_lt.mpr hge
      simp only [collectRead, compute_rate, hp]
      rw [if_neg hnlt]
      congr 1
      rw [Nat.cast_sub hle]

/-- Witness for C2: after a collection at instant 0 and 100 recorded
messages, a collection 50 ms later reports the delta over 0.05 s. -/
theorem collect_rate_spec_witness :
    (SeriesState.init.applyOps
        [SeriesOp.collect 0, SeriesOp.record 100]).prev_snapshot = some (0, 0) ∧
    (collectRead 50000000 (SeriesState.init.applyOps
        [SeriesOp.collect 0, SeriesOp.record 100])).1.rate =
      some ((((SeriesState.init.applyOps
          [SeriesOp.collect 0, SeriesOp.record 100]).count : ℚ) - (0 : ℚ)) /
        (((50000000 - 0 : Nat) : ℚ) / 1000000000)) :=
  ⟨by decide,
   ((collect_rate_spec [SeriesOp.collect 0, SeriesOp.record 100] 50000000).2.2.1
      0 0 (by decide)).2 (by norm_num)⟩

/-- C9: with a memo present and at least 10 ms elapsed, `compute_rate` always
returns `Some r` with `r ≥ 0`; when the current count is below the memoized
count the saturating delta yields rate 0, never a negative rate. -/
theorem compute_rate_nonneg (pc pt c now : Nat)
    (h : 1 / 100 ≤ ((now - pt : Nat) : ℚ) / 1000000000) :
    (∃ r, compute_rate (some (pc, pt)) c now = some r ∧ 0 ≤ r) ∧
    (c ≤ pc → compute_rate (some (pc, pt)) c now = some 0) := by
  have hnlt : ¬ (((now - pt : Nat) : ℚ) / 1000000000 < 1 / 100) := not_lt.mpr h
  constructor
  · refine ⟨((c - pc : Nat) : ℚ) / (((now - pt : Nat) : ℚ) / 1000000000), ?_, ?_⟩
    · simp only [compute_rate]
      rw [if_neg hnlt]
    · exact div_nonneg (Nat.cast_nonneg _)
        (div_nonneg (Nat.cast_nonneg _) (by norm_num))
  · intro hc
    simp only [compute_rate]
    rw [if_neg hnlt]
    rw [Nat.sub_eq_zero_of_le hc]
    simp

/-- Witness for C9: a series whose count dropped from 100 to 50 (for example
after a series swap) reports rate 0, not a negative rate, 50 ms later. -/
theorem compute_rate_nonneg_witness :
    (∃ r, compute_rate (some (100, 0)) 50 50000000 = some r ∧ 0 ≤ r) ∧
    (50 ≤ 100 → compute_rate (some (100, 0)) 50 50000000 = some 0) :=
  compute_rate_nonneg 100 0 50 50000000 (by norm_num)

theorem mapLookup_mem {α : Type} {k : String} {v : α} :
    ∀ {l : List (String × α)}, mapLookup k l = some v → (k, v) ∈ l := by
  intro l
  induction l with
  | nil => intro h; cases h
  | cons hd tl ih =>
    intro h
    obtain ⟨k', v'⟩ := hd
    simp only [mapLookup] at h
    by_cases hk : k = k'
    · rw [if_pos hk] at h
      obtain rfl : v' = v := Option.some_injective _ h
      subst hk
      exact List.mem_cons_self _ _
    · rw [if_neg hk] at h
      exact List.mem_cons_of_mem _ (ih h)

theorem mapLookup_collectModules_none {tw : List (String × Nat)} {now : Nat}
    {name : String} :
    ∀ (mods : List (String × Nat)) (heap : Nat → ModuleState),
      mapLookup name mods = none →
      mapLookup name (collectModules tw now mods heap).1 = none := by
  intro mods
  induction mods with
  | nil => intro heap _; rfl
  | cons hd tl ih =>
    intro heap h
    obtain ⟨n', id'⟩ := hd
    simp only [mapLookup] at h
    by_cases hn : name = n'
    · rw [if_pos hn] at h; cases h
    · rw [if_neg hn] at h
      simp only [collectModules]
      rw [mapLookup_mapInsert, if_neg hn]
      exact ih _ h

theorem mapLookup_collectModules_some {tw : List (String × Nat)} {now : Nat}
    {name : String} {tid : Nat} :
    ∀ (mods : List (String × Nat)) (heap : Nat → ModuleState),
      (∀ p ∈ mods, p.1 ≠ name → p.2 ≠ tid) →
      mapLookup name mods = some tid →
      mapLookup name (collectModules tw now mods heap).1 =
        some (fixModule tw (((heap tid).collect now)).1) := by
  intro mods
  induction mods with
  | nil => intro heap _ h; cases h
  | cons hd tl ih =>
    intro heap H h
    obtain ⟨n', id'⟩ := hd
    simp only [collectModules]
    rw [mapLookup_mapInsert]
    by_cases hn : name = n'
    · rw [if_pos hn]
      simp only [mapLookup, if_pos hn] at h
      obtain rfl : id' = tid := Option.some_injective _ h
      rfl
    · rw [if_neg hn]
      simp only [mapLookup, if_neg hn] at h
      have hid' : id' ≠ tid :=
        H (n', id') (List.mem_cons_self _ _) (fun he => hn he.symm)
      have htid : ¬ tid = id' := fun he => hid' he.symm
      have hres := ih (fun i => if i = id' then ((heap id').collect now).2 else heap i)
        (fun p hp => H p (List.mem_cons_of_mem _ hp)) h
      simpa [if_neg htid] using hres

/-- C6: `unregister_module` returns `true` iff the module is registered, and
removes it so that the next `collect` omits the name (an immediate second
unregister returns `false`); after registering the name again, the first
`collect` shows the module with fresh, empty series, even though a handle from
the earlier registration keeps recording into its orphaned series. -/
theorem unregister_register_spec (g : GlobalState) (name : String)
    (hkeys : (g.modules.map Prod.fst).Nodup)
    (hbound : ∀ p ∈ g.modules, p.2 < g.nextId) :
    ((g.unregister_module name).1 = (mapLookup name g.modules).isSome) ∧
    (∀ now ts,
      mapLookup name
        ((((g.unregister_module name).2).collect now ts).1).modules = none) ∧
    ((((g.unregister_module name).2).unregister_module name).1 = false) ∧
    (∀ oldId, mapLookup name g.modules = some oldId →
      ∀ topic k now ts,
        mapLookup name
          (((GlobalState.handle_record_read oldId topic k
              (((g.unregister_module name).2).register_module name).2).collect
                now ts).1).modules = some ⟨[], []⟩) := by
  refine ⟨rfl, ?_, ?_, ?_⟩
  · intro now ts
    simp only [GlobalState.collect, GlobalState.unregister_module]
    exact mapLookup_collectModules_none _ _ (mapLookup_mapRemove_self hkeys)
  · simp [GlobalState.unregister_module, mapLookup_mapRemove_self hkeys]
  · intro oldId hold topic k now ts
    have holdlt : oldId < g.nextId := hbound _ (mapLookup_mem hold)
    have hnone : mapLookup name (mapRemove name g.modules) = none :=
      mapLookup_mapRemove_self hkeys
    simp only [GlobalState.unregister_module, GlobalState.register_module,
      GlobalState.handle_record_read, GlobalState.collect, hnone]
    have H : ∀ p ∈ mapInsert name g.nextId (mapRemove name g.modules),
        p.1 ≠ name → p.2 ≠ g.nextId := by
      intro p hp hne
      rcases mem_mapInsert _ hp with he | hmem
      · exact absurd (congrArg Prod.fst he) (by simpa using hne)
      · exact Nat.ne_of_lt (hbound p ((mapRemove_sublist name g.modules).subset hmem))
    have hlook : mapLookup name
        (mapInsert name g.nextId (mapRemove name g.modules)) = some g.nextId := by
      rw [mapLookup_mapInsert]; simp
    rw [mapLookup_collectModules_some _ _ H hlook]
    have h1 : ¬ g.nextId = oldId := fun he => Nat.ne_of_lt holdlt he.symm
    simp [if_neg h1, fixModule, ModuleState.collect, ModuleState.init]

/-- Witness for C6 at the S2-style scenario: a `"worker"` module with 50 reads
on `"jobs"` is unregistered, re-registered, and the old handle records 25 more
reads; the next collect still shows fresh, empty series. -/
theorem unregister_register_spec_witness :
    ((⟨[("worker", 0)], 1,
        fun i => if i = 0 then ⟨[("jobs", ⟨50, none, none⟩)], []⟩
                 else ModuleState.init, []⟩ :
        GlobalState).unregister_module "worker").1 = true ∧
    mapLookup "worker"
      (((GlobalState.handle_record_read 0 "jobs" 25
          ((((⟨[("worker", 0)], 1,
              fun i => if i = 0 then ⟨[("jobs", ⟨50, none, none⟩)], []⟩
                       else ModuleState.init, []⟩ :
              GlobalState).unregister_module "worker").2).register_module
            "worker").2).collect 7 9).1).modules = some ⟨[], []⟩ := by
  have h := unregister_register_spec
    (⟨[("worker", 0)], 1,
      fun i => if i = 0 then ⟨[("jobs", ⟨50, none, none⟩)], []⟩
               else ModuleState.init, []⟩ : GlobalState) "worker"
    (by decide) (by decide)
  exact ⟨by rw [h.1]; decide, h.2.2.2 0 (by decide) "jobs" 25 7 9⟩

/-- C3 counterexample: the JSON document the File output writes for a concrete
snapshot (one module, one read series) is rejected by the viewer file-poll
source's `MonitorSnapshot` parser. -/
theorem file_json_rejected_by_viewer :
    parseMonitorSnapshot (snapshotToJson
      ⟨SchemaVersion.current, 1703160000000,
       [("api", ⟨[("orders", ⟨950, some 50, none, none⟩)], []⟩)]⟩) = none := rfl

/-- C3 amended: the emitters and the viewer file-poll source do not share a
snapshot schema — for every `Snapshot`, the document written by the File
output fails to deserialize as the viewer's `MonitorSnapshot` (the viewer
expects a bare module map with `read`/`unread`/`pending_for` and `written`
fields, and the SDK document's `version` envelope field already fails to parse
as a module state). -/
theorem file_json_never_parses_as_monitor (s : Snapshot) :
    parseMonitorSnapshot (snapshotToJson s) = none := by
  simp only [snapshotToJson, parseMonitorSnapshot]
  have h : parseModuleState (.obj [("major", Json.num s.version.major),
      ("minor", Json.num s.version.minor)]) = none := by
    simp [parseModuleState, mapLookup]
  simp [List.mapM, List.mapM.loop, h]

/-- C4 counterexample: for a loaded `MonitorData` with one healthy module, the
document written by `App::export_state` has top-level keys `modules` and
`summary` only — there is no `bottlenecks` key, contrary to the claimed
`\x7bsummary, modules, bottlenecks\x7d` shape. -/
theorem export_state_no_bottlenecks :
    (export_state ⟨[⟨"api", [], [], 10, 20, HealthStatus.Healthy⟩], 0⟩).keys
        = ["modules", "summary"] ∧
    (export_state ⟨[⟨"api", [], [], 10, 20, HealthStatus.Healthy⟩], 0⟩).getField
        "bottlenecks" = none :=
  ⟨rfl, rfl⟩

/-- C4 amended: whenever monitor data is loaded, `App::export_state` writes a
JSON object whose top-level keys are exactly `summary` and `modules` (no
`bottlenecks` key); `summary` holds exactly `total_modules` and the
healthy/warning/critical counts, and `modules` lists one
`\x7bhealth, name, total_read, total_written\x7d` entry per module. -/
theorem export_state_shape (data : MonitorData) :
    (export_state data).keys = ["modules", "summary"] ∧
    (export_state data).getField "bottlenecks" = none ∧
    (∃ sf, (export_state data).getField "summary" = some (.obj sf) ∧
      sf.map Prod.fst = ["critical", "healthy", "total_modules", "warning"] ∧
      mapLookup "total_modules" sf = some (.num data.modules.length) ∧
      mapLookup "healthy" sf = some (.num
        (data.modules.filter (fun m => decide (m.health = .Healthy))).length) ∧
      mapLookup "warning" sf = some (.num
        (data.modules.filter (fun m => decide (m.health = .Warning))).length) ∧
      mapLookup "critical" sf = some (.num
        (data.modules.filter (fun m => decide (m.health = .Critical))).length)) ∧
    (export_state data).getField "modules" = some (.arr (data.modules.map (fun m =>
      .obj [("health", .str (healthDebug m.health)),
            ("name", .str m.name),
            ("total_read", .num m.total_read),
            ("total_written", .num m.total_written)]))) := by
  refine ⟨rfl, rfl, ⟨_, rfl, rfl, rfl, rfl, rfl, rfl⟩, rfl⟩

/-- C5: rendering the S4 snapshot through `format_prometheus` with no
namespace yields exactly the six expected metric lines; the absent optional
field (write pending) produces no line, and label values escape backslash,
double quote and newline. -/
theorem format_prometheus_s4 :
    containsLine "buswatch_read_count\x7bmodule=\"my-service\",topic=\"events\"\x7d 1000"
      (format_prometheus s4Snapshot none) = true ∧
    containsLine "buswatch_read_backlog\x7bmodule=\"my-service\",topic=\"events\"\x7d 50"
      (format_prometheus s4Snapshot none) = true ∧
    containsLine "buswatch_read_pending_seconds\x7bmodule=\"my-service\",topic=\"events\"\x7d 0.100000"
      (format_prometheus s4Snapshot none) = true ∧
    containsLine "buswatch_read_rate_per_second\x7bmodule=\"my-service\",topic=\"events\"\x7d 50.50"
      (format_prometheus s4Snapshot none) = true ∧
    containsLine "buswatch_write_count\x7bmodule=\"my-service\",topic=\"output\"\x7d 500"
      (format_prometheus s4Snapshot none) = true ∧
    containsLine "buswatch_write_rate_per_second\x7bmodule=\"my-service\",topic=\"output\"\x7d 25.00"
      (format_prometheus s4Snapshot none) = true ∧
    someLineStartsWith "buswatch_write_pending_seconds"
      (format_prometheus s4Snapshot none) = false ∧
    escape_label_value "with\"quote" = "with\\\"quote" ∧
    escape_label_value "with\\backslash" = "with\\\\backslash" ∧
    escape_label_value "with\nnewline" = "with\\nnewline" :=
  ⟨rfl, rfl, rfl, rfl, rfl, rfl, rfl, rfl, rfl, rfl⟩

/-- C7 counterexample: for the totals `[0, 5, 15]` the delta sequence is
`[5, 10]`; the code normalizes against `[min(min_delta, 0), max_delta] =
[0, 10]` and yields levels `[3, 7]`, while normalizing against the observed
`[min, max] = [5, 10]` yields `[0, 7]`. -/
theorem normalize_sparkline_not_observed_range :
    normalize_sparkline (some [0, 5, 15]) = [3, 7] ∧
    specNormalizeSparkline [0, 5, 15] = [0, 7] ∧
    normalize_sparkline (some [0, 5, 15]) ≠ specNormalizeSparkline [0, 5, 15] :=
  ⟨rfl, rfl, by decide⟩

/-- C7 amended: for every per-module history with at least two recorded
totals, the sparkline levels are the deltas between consecutive totals,
linearly mapped into `0..=7` against the range
`[min(min_delta, 0), max(max_delta, 1)]` (the observed delta range widened to
include 0 and to width ≥ 1) — not the bare observed `[min, max]` — and the
rendering draws the most recent 8 levels with the characters `▁▂▃▄▅▆▇█`. -/
theorem sparkline_spec (values : List Nat) (h : 2 ≤ values.length) :
    (let deltas : List Int :=
      (values.zip (values.drop 1)).map (fun p => (p.2 : Int) - (p.1 : Int))
    let mx := max ((deltas.max?).getD 1) 1
    let mn := min ((deltas.min?).getD 0) 0
    let range := max (mx - mn) 1
    let levels := deltas.map (fun v => min ((v - mn) * 7 / range).toNat 7)
    normalize_sparkline (some values) = levels ∧
    (∀ l ∈ levels, l ≤ 7) ∧
    render_sparkline (normalize_sparkline (some values)) =
      String.mk ((levels.reverse.take 8).reverse.map
        (fun v => SPARKLINE_CHARS.getD (min v 7) ' '))) := by
  intro deltas mx mn range levels
  have hlen : ¬ values.length < 2 := not_lt.mpr h
  have hdel : deltas.length = values.length - 1 := by
    simp only [deltas, List.length_map, List.length_zip, List.length_drop]
    exact Nat.min_eq_right (Nat.sub_le _ _)
  have hdne : deltas ≠ [] := by
    intro he
    rw [he] at hdel
    simp at hdel
    omega
  have hdne' : ¬ deltas.isEmpty = true := by
    simpa [List.isEmpty_iff] using hdne
  have hnorm : normalize_sparkline (some values) = levels := by
    simp only [normalize_sparkline, if_neg hlen, if_neg hdne']
  refine ⟨hnorm, ?_, ?_⟩
  · intro l hl
    simp only [levels, List.mem_map] at hl
    obtain ⟨v, -, hv⟩ := hl
    rw [← hv]
    exact min_le_right _ _
  · rw [hnorm]
    have hlne : ¬ levels.isEmpty = true := by
      simp only [levels, List.isEmpty_iff, List.map_eq_nil_iff]
      exact hdne
    simp only [render_sparkline, if_neg hlne]

/-- Witness for C7's amended statement at the totals `[10, 15, 25]`. -/
theorem sparkline_spec_witness :
    let deltas : List Int :=
      (([10, 15, 25] : List Nat).zip (([10, 15, 25] : List Nat).drop 1)).map
        (fun p => (p.2 : Int) - (p.1 : Int))
    let mx := max ((deltas.max?).getD 1) 1
    let mn := min ((deltas.min?).getD 0) 0
    let range := max (mx - mn) 1
    let levels := deltas.map (fun v => min ((v - mn) * 7 / range).toNat 7)
    normalize_sparkline (some [10, 15, 25]) = levels ∧
    (∀ l ∈ levels, l ≤ 7) ∧
    render_sparkline (normalize_sparkline (some [10, 15, 25])) =
      String.mk ((levels.reverse.take 8).reverse.map
        (fun v => SPARKLINE_CHARS.getD (min v 7) ' ')) :=
  sparkline_spec [10, 15, 25] (by decide)

/-- C8 counterexample: a 404 on the single-queue call yields
`AdapterError::Http("Queue ... not found")` — its kind is `Http`, not the
`NotFound` kind the claim names (no such variant exists in the taxonomy). -/
theorem rabbitmq_404_is_http :
    fetch_queue "jobs" (.response 404 (.ok ⟨"jobs", 0, 0, none, none⟩)) =
      .error (.Http ("Queue " ++ sq ++ "jobs" ++ sq ++ " not found")) ∧
    (AdapterError.Http ("Queue " ++ sq ++ "jobs" ++ sq ++ " not found")).specKind
      = SpecErrorKind.http ∧
    SpecErrorKind.http ≠ SpecErrorKind.notFound :=
  ⟨rfl, rfl, by decide⟩

/-- C8 amended: for the single-queue call, a 401 yields an `Auth` error and a
404 yields an `Http` error whose message marks the queue as not found (the
taxonomy has no separate NotFound kind); a success-status body that fails to
parse yields a `Parse` error; and every error the adapter returns falls in the
taxonomy `Http, Parse, Auth, Connection, Timeout, Unsupported`. -/
theorem rabbitmq_error_taxonomy (queue_name : String) (outcome : SendOutcome) :
    (∀ body, outcome = .response 401 body →
      fetch_queue queue_name outcome = .error (.Auth "Invalid credentials")) ∧
    (∀ body, outcome = .response 404 body →
      fetch_queue queue_name outcome =
        .error (.Http ("Queue " ++ sq ++ queue_name ++ sq ++ " not found"))) ∧
    (∀ status e, outcome = .response status (.error e) →
      200 ≤ status → status ≤ 299 →
      fetch_queue queue_name outcome = .error (.Parse e)) ∧
    (∀ err, fetch_queue queue_name outcome = .error err →
      err.specKind ∈ [SpecErrorKind.http, SpecErrorKind.parse, SpecErrorKind.auth,
        SpecErrorKind.connection, SpecErrorKind.timeout, SpecErrorKind.unsupported]) := by
  refine ⟨?_, ?_, ?_, ?_⟩
  · rintro body rfl
    rfl
  · rintro body rfl
    rfl
  · rintro status e rfl h200 h299
    have h1 : ¬ status = 401 := by omega
    have h2 : ¬ status = 404 := by omega
    simp only [fetch_queue, if_neg h1, if_neg h2]
    rw [if_neg (not_not_intro ⟨h200, h299⟩)]
  · intro err _
    cases err <;> simp [AdapterError.specKind]

/-- Witness for C8's amended statement at concrete responses. -/
theorem rabbitmq_error_taxonomy_witness :
    fetch_queue "jobs" (.response 401 (.error "denied")) =
      .error (.Auth "Invalid credentials") ∧
    fetch_queue "jobs" (.response 200 (.error "bad json")) =
      .error (.Parse "bad json") :=
  ⟨(rabbitmq_error_taxonomy "jobs" (.response 401 (.error "denied"))).1 _ rfl,
   (rabbitmq_error_taxonomy "jobs" (.response 200 (.error "bad json"))).2.2.1
     200 "bad json" rfl (by norm_num) (by norm_num)⟩

/-- C10: once the file source's `error()` is `Some`, every subsequent
`reload_data` stores that error and returns false without touching the source
(so it never polls, never delivers a snapshot, and never clears the error),
and `App.data` stays unchanged forever. -/
theorem reload_data_error_latch (app : App) (e : String)
    (h : app.source.last_error = some e) :
    ∀ steps : List (FsView × Nat),
      (App.reload_seq steps app).1.data = app.data ∧
      (App.reload_seq steps app).1.source = app.source ∧
      (App.reload_seq steps app).1.load_error =
        (if steps.isEmpty then app.load_error else some e) ∧
      (App.reload_seq steps app).2 = List.replicate steps.length false := by
  intro steps
  induction steps generalizing app with
  | nil => exact ⟨rfl, rfl, by simp [App.reload_seq], rfl⟩
  | cons st rest ih =>
    obtain ⟨fs, now⟩ := st
    have hstep : app.reload_data fs now = ({ app with load_error := some e }, false) := by
      simp [App.reload_data, h]
    have hres := ih { app with load_error := some e } (by simpa using h)
    simp only [App.reload_seq, hstep]
    refine ⟨hres.1, hres.2.1, ?_, ?_⟩
    · rw [hres.2.2.1, if_neg (by simp : ¬ (((fs, now) :: rest).isEmpty = true))]
      split_ifs <;> rfl
    · rw [hres.2.2.2, List.length_cons, List.replicate_succ]

/-- Witness for C10: a source stuck on a read error ignores a later perfectly
readable file across two reload cycles. -/
theorem reload_data_error_latch_witness :
    (App.reload_seq [(⟨some 5, ReadOutcome.parsed []⟩, 1), (⟨some 6, ReadOutcome.parsed []⟩, 2)]
      ⟨⟨some "Read error: missing", none, none⟩, none, History.init, none,
        Thresholds.default, 0⟩).1.data =
      (⟨⟨some "Read error: missing", none, none⟩, none, History.init, none,
        Thresholds.default, 0⟩ : App).data ∧
    (App.reload_seq [(⟨some 5, ReadOutcome.parsed []⟩, 1), (⟨some 6, ReadOutcome.parsed []⟩, 2)]
      ⟨⟨some "Read error: missing", none, none⟩, none, History.init, none,
        Thresholds.default, 0⟩).1.source =
      (⟨⟨some "Read error: missing", none, none⟩, none, History.init, none,
        Thresholds.default, 0⟩ : App).source ∧
    (App.reload_seq [(⟨some 5, ReadOutcome.parsed []⟩, 1), (⟨some 6, ReadOutcome.parsed []⟩, 2)]
      ⟨⟨some "Read error: missing", none, none⟩, none, History.init, none,
        Thresholds.default, 0⟩).1.load_error =
      (if ([(⟨some 5, ReadOutcome.parsed []⟩, 1), (⟨some 6, ReadOutcome.parsed []⟩, 2)] :
          List (FsView × Nat)).isEmpty
       then (⟨⟨some "Read error: missing", none, none⟩, none, History.init, none,
          Thresholds.default, 0⟩ : App).load_error
       else some "Read error: missing") ∧
    (App.reload_seq [(⟨some 5, ReadOutcome.parsed []⟩, 1), (⟨some 6, ReadOutcome.parsed []⟩, 2)]
      ⟨⟨some "Read error: missing", none, none⟩, none, History.init, none,
        Thresholds.default, 0⟩).2 =
      List.replicate ([(⟨some 5, ReadOutcome.parsed []⟩, 1),
        (⟨some 6, ReadOutcome.parsed []⟩, 2)] : List (FsView × Nat)).length false :=
  reload_data_error_latch
    ⟨⟨some "Read error: missing", none, none⟩, none, History.init, none,
      Thresholds.default, 0⟩ "Read error: missing" rfl
    [(⟨some 5, ReadOutcome.parsed []⟩, 1), (⟨some 6, ReadOutcome.parsed []⟩, 2)]

end Buswatch
